import Mathlib

/-!
Verification of the vero agent framework against its specification.

The development shallowly embeds the Python source of the repository:

* `src/vero/tool/tool.py` — the `Tool` schema generator (`to_openai_schema`,
  `_annotation_to_schema`);
* `src/vero/core/message.py` — the `Message` record;
* `src/vero/core/chat_openai.py` — the non-streaming path of
  `ChatOpenAI.generate`;
* `src/vero/agents/simple_agent.py`, `react_agent.py`,
  `openai_function_agent.py` — the three reasoning loops.

The chat-completion model is an external collaborator: agent runs are
parameterised by a finite script of assistant replies, one per model call
(the spec, section 6, fixes the collaborator contract: every non-streaming
call yields one assistant message).  Exhausting the script stands for a
transport failure of the collaborator (`LLMCallError`).

Python dynamic features are made explicit: locals that may be unbound
across loop iterations are threaded as `Option` values and dereferencing
an unbound one is the distinguished error `RunErr.nameError`; raised
exceptions become `Except` / error results.
-/

/-- Python values produced by `json.loads` / `ast.literal_eval`, restricted
to the fragment the repository exercises: `null`, booleans, (arbitrary
precision) integers, strings, arrays and objects.  Floats and `\u` escapes
are outside the modelled fragment; no claim depends on them.  Objects keep
their key/value pairs in textual order (Python dict insertion order), with
later duplicate keys shadowing earlier ones on lookup, as in Python. -/
inductive Json where
  | null : Json
  | bool (b : Bool) : Json
  | int (n : Int) : Json
  | str (s : String) : Json
  | arr (xs : List Json) : Json
  | obj (kvs : List (String × Json)) : Json

/-- Python `dict.get`: lookup of a key in an object, later duplicate keys
winning (Python keeps the last value for a repeated key). -/
def Json.get : Json → String → Option Json
  | Json.obj kvs, k => (kvs.reverse.find? (fun p => p.1 = k)).map (fun p => p.2)
  | _, _ => none

/-- Whitespace skipping used by both parsers. -/
def skipWs : List Char → List Char
  | [] => []
  | c :: cs => if c.isWhitespace then skipWs cs else c :: cs

/-- Does the character list start with the given prefix? -/
def startsWithCL (pre cs : List Char) : Bool :=
  pre.isPrefixOf cs

/-- Python `str.strip()` (structural implementation). -/
def strTrim (s : String) : String :=
  String.mk (((s.data.dropWhile Char.isWhitespace).reverse.dropWhile Char.isWhitespace).reverse)

/-- Python `str.lower()` (structural implementation). -/
def strLower (s : String) : String :=
  String.mk (s.data.map Char.toLower)

/-- Parse the body of a quoted string literal terminated by `quote`,
handling the simple escapes `\\`, `\"`, quote, `\n`, `\t`, `\r`, `\/`.
Returns the decoded characters and the remaining input. -/
def parseQuotedBody (quote : Char) : List Char → Option (List Char × List Char)
  | [] => none
  | c :: cs =>
    if c = quote then some ([], cs)
    else if c = '\\' then
      match cs with
      | [] => none
      | e :: cs2 =>
        let dec : Option Char :=
          if e = 'n' then some '\n'
          else if e = 't' then some '\t'
          else if e = 'r' then some '\r'
          else if e = '\\' then some '\\'
          else if e = '/' then some '/'
          else if e = '"' then some '"'
          else if e = quote then some quote
          else none
        match dec with
        | none => none
        | some d =>
          match parseQuotedBody quote cs2 with
          | some (body, rest) => some (d :: body, rest)
          | none => none
    else
      match parseQuotedBody quote cs with
      | some (body, rest) => some (c :: body, rest)
      | none => none

/-- Parse a run of decimal digits. -/
def parseDigits : List Char → Option (Nat × List Char)
  | cs =>
    let digs := cs.takeWhile Char.isDigit
    if digs.isEmpty then none
    else some (digs.foldl (fun acc c => acc * 10 + (c.toNat - 48)) 0, cs.drop digs.length)

mutual

/-- One value of the literal grammar.  `py = false` is the `json.loads`
grammar (`true` / `false` / `null`, double-quoted strings); `py = true`
is the `ast.literal_eval` fallback fragment (`True` / `False` / `None`,
single- or double-quoted strings).  Fuel bounds the recursion depth;
callers supply more fuel than the input length. -/
def parseVal (py : Bool) : Nat → List Char → Option (Json × List Char)
  | 0, _ => none
  | fuel + 1, cs =>
    let cs := skipWs cs
    match cs with
    | [] => none
    | c :: rest =>
      if c = '\x7b' then
        parseObjItems py fuel (skipWs rest) true
      else if c = '[' then
        parseArrItems py fuel (skipWs rest) true
      else if c = '"' then
        (parseQuotedBody '"' rest).map (fun p => (Json.str (String.mk p.1), p.2))
      else if py && c = '\'' then
        (parseQuotedBody '\'' rest).map (fun p => (Json.str (String.mk p.1), p.2))
      else if c = '-' then
        (parseDigits rest).map (fun p => (Json.int (-(p.1 : Int)), p.2))
      else if c.isDigit then
        (parseDigits cs).map (fun p => (Json.int (p.1 : Int), p.2))
      else if !py && startsWithCL "true".data cs then some (Json.bool true, cs.drop 4)
      else if !py && startsWithCL "false".data cs then some (Json.bool false, cs.drop 5)
      else if !py && startsWithCL "null".data cs then some (Json.null, cs.drop 4)
      else if py && startsWithCL "True".data cs then some (Json.bool true, cs.drop 4)
      else if py && startsWithCL "False".data cs then some (Json.bool false, cs.drop 5)
      else if py && startsWithCL "None".data cs then some (Json.null, cs.drop 4)
      else none

/-- Items of an array; `first` is true before the first item. -/
def parseArrItems (py : Bool) : Nat → List Char → Bool → Option (Json × List Char)
  | 0, _, _ => none
  | fuel + 1, cs, first =>
    match skipWs cs with
    | ']' :: rest => if first then some (Json.arr [], rest) else none
    | cs2 =>
      match parseVal py fuel cs2 with
      | none => none
      | some (v, rest) =>
        match skipWs rest with
        | ',' :: rest2 =>
          match parseArrItems py fuel rest2 false with
          | some (Json.arr xs, rest3) => some (Json.arr (v :: xs), rest3)
          | _ => none
        | ']' :: rest2 => some (Json.arr [v], rest2)
        | _ => none

/-- Items of an object; `first` is true before the first pair. -/
def parseObjItems (py : Bool) : Nat → List Char → Bool → Option (Json × List Char)
  | 0, _, _ => none
  | fuel + 1, cs, first =>
    match skipWs cs with
    | '\x7d' :: rest => if first then some (Json.obj [], rest) else none
    | cs2 =>
      match parseVal py fuel cs2 with
      | none => none
      | some (Json.str k, rest) =>
        match skipWs rest with
        | ':' :: rest2 =>
          match parseVal py fuel rest2 with
          | none => none
          | some (v, rest3) =>
            match skipWs rest3 with
            | ',' :: rest4 =>
              match parseObjItems py fuel rest4 false with
              | some (Json.obj kvs, rest5) => some (Json.obj ((k, v) :: kvs), rest5)
              | _ => none
            | '\x7d' :: rest4 => some (Json.obj [(k, v)], rest4)
            | _ => none
        | _ => none
      | some (_, _) => none

end

/-- `json.loads` on the modelled fragment: the whole input must be consumed
(up to trailing whitespace). -/
def jsonLoads (s : String) : Option Json :=
  match parseVal false (s.length + 1) s.data with
  | some (v, rest) => if skipWs rest = [] then some v else none
  | none => none

/-- `ast.literal_eval` on the modelled fragment (Python literal syntax:
single quotes, `True` / `False` / `None`). -/
def literalEval (s : String) : Option Json :=
  match parseVal true (s.length + 1) s.data with
  | some (v, rest) => if skipWs rest = [] then some v else none
  | none => none

/-!
## Tool schema generation (`src/vero/tool/tool.py`)

`Tool.to_openai_schema` walks `inspect.signature(func).parameters`.  A
parameter is a name, a type annotation and a default marker.  The source
flattens the default first (`default = None if param.default is
inspect._empty else param.default`), so "no default" and "default None"
become indistinguishable before `_annotation_to_schema` computes
`is_required` as `default is None`.
-/

/-- Python type annotations, as far as `_annotation_to_schema` inspects
them via `get_origin` / `get_args`: the primitive entries of
`PYTHON_TO_JSON` (bare `str`/`int`/`float`/`bool`/`dict`/`list`),
parameterised `List[T]` and `Dict[K, V]`, `Union[...]` (which is how
`Optional[T]` presents, with `NoneType` among the arguments), `NoneType`
itself, and `other` for anything unmapped (including `Any`), which the
source sends to the string fallback. -/
inductive Ann where
  | str : Ann
  | int : Ann
  | float : Ann
  | bool : Ann
  | dictT : Ann
  | listT : Ann
  | listOf (t : Ann) : Ann
  | dictOf (k v : Ann) : Ann
  | union (args : List Ann) : Ann
  | noneT : Ann
  | other : Ann

/-- The `a is type(None)` test of the source. -/
def Ann.isNone : Ann → Bool
  | Ann.noneT => true
  | _ => false

/-- The default marker of a parameter: `absent` is `inspect._empty`,
`noneV` an explicit `None` default, `value` any non-`None` default. -/
inductive Dflt where
  | absent : Dflt
  | noneV : Dflt
  | value : Dflt
deriving Repr, DecidableEq

/-- `default = None if param.default is inspect._empty else param.default`
followed by the `default is None` test of `_annotation_to_schema`: true
exactly when the default is absent or is the explicit value `None`. -/
def Dflt.isNoneAfterFlatten : Dflt → Bool
  | Dflt.absent => true
  | Dflt.noneV => true
  | Dflt.value => false

/-- JSON Schema fragments produced by `_annotation_to_schema`: `prim ty`
is `\x7b"type": ty\x7d`, `anyOf a b` is `\x7b"anyOf": [a, b]\x7d`, `arrOf s` is
`\x7b"type": "array", "items": s\x7d`, and `objAdd s` is
`\x7b"type": "object", "additionalProperties": s\x7d`. -/
inductive Sch where
  | prim (ty : String) : Sch
  | anyOf (a b : Sch) : Sch
  | arrOf (items : Sch) : Sch
  | objAdd (addProps : Sch) : Sch
deriving Repr, DecidableEq

/-- `Tool._annotation_to_schema(annotation, default)`, with the `default is
None` test precomputed as `defIsNone`.  Branch order follows the source:
the `Union`-containing-`None` check with exactly one non-`None` member
first (any other `Union` falls through every later test into the string
fallback, since a `Union` object is neither a `list`/`dict` origin nor a
key of `PYTHON_TO_JSON`); then `List[T]`; then `Dict[K, V]`; then the
primitive table; then the string fallback.  Recursive calls pass `None`
as the default, whose flattened test is true. -/
def annToSchema : Ann → Bool → Sch × Bool
  | Ann.union args, defIsNone =>
    if args.any Ann.isNone then
      match h : args.filter (fun a => !a.isNone) with
      | [t] => (Sch.anyOf (annToSchema t true).1 (Sch.prim "null"), false)
      | _ => (Sch.prim "string", defIsNone)
    else (Sch.prim "string", defIsNone)
  | Ann.listOf t, defIsNone => (Sch.arrOf (annToSchema t true).1, defIsNone)
  | Ann.dictOf _ v, defIsNone => (Sch.objAdd (annToSchema v true).1, defIsNone)
  | Ann.str, defIsNone => (Sch.prim "string", defIsNone)
  | Ann.int, defIsNone => (Sch.prim "integer", defIsNone)
  | Ann.float, defIsNone => (Sch.prim "number", defIsNone)
  | Ann.bool, defIsNone => (Sch.prim "boolean", defIsNone)
  | Ann.dictT, defIsNone => (Sch.prim "object", defIsNone)
  | Ann.listT, defIsNone => (Sch.prim "array", defIsNone)
  | Ann.noneT, defIsNone => (Sch.prim "string", defIsNone)
  | Ann.other, defIsNone => (Sch.prim "string", defIsNone)
decreasing_by
  all_goals simp_wf
  all_goals
    have ht : t ∈ args.filter (fun a => !a.isNone) := by
      rw [h]; exact List.mem_singleton.mpr rfl
  all_goals
    have ht2 : t ∈ args := (List.mem_filter.mp ht).1
  all_goals
    have hs := List.sizeOf_lt_of_mem ht2
  all_goals omega

/-- One parameter of a wrapped callable: declared name, annotation and
default marker, in signature order. -/
structure Param where
  name : String
  ann : Ann
  dflt : Dflt

/-- A wrapped callable as the schema generator sees it. -/
structure ToolDef where
  name : String
  description : String
  params : List Param

/-- One entry of the `properties` object: the parameter name, its schema
fragment, and the `description` field the source sets to the parameter
name. -/
structure PropEntry where
  pname : String
  schema : Sch
  descr : String
deriving Repr, DecidableEq

/-- The `function` object of the generated schema. -/
structure FnSchema where
  name : String
  description : String
  properties : List PropEntry
  required : List String
deriving Repr, DecidableEq

/-- The parameter loop of `to_openai_schema`: skip `self`, compute the
fragment and required flag, set `description` to the parameter name,
collect `properties` and `required` in signature order. -/
def schemaLoop : List Param → List PropEntry × List String
  | [] => ([], [])
  | p :: rest =>
    if p.name = "self" then schemaLoop rest
    else
      let sr := annToSchema p.ann p.dflt.isNoneAfterFlatten
      let pr := schemaLoop rest
      (⟨p.name, sr.1, p.name⟩ :: pr.1, if sr.2 then p.name :: pr.2 else pr.2)

/-- `Tool.to_openai_schema()`: the full function-calling descriptor
(`\x7b"type": "function", "function": \x7b name, description, parameters \x7d\x7d`,
with `parameters` of type `object` holding `properties` and `required`). -/
def toOpenAISchema (t : ToolDef) : FnSchema :=
  ⟨t.name, t.description, (schemaLoop t.params).1, (schemaLoop t.params).2⟩

/-!
## Messages (`src/vero/core/message.py`) and the agent tool boundary
-/

/-- The `role` literal of a `Message`. -/
inductive Role where
  | system : Role
  | user : Role
  | assistant : Role
  | tool : Role
deriving Repr, DecidableEq

/-- One pending tool-call request attached to an assistant message, as the
function-calling agent reads it: `tc["id"]`, `tc["function"]["name"]`,
`tc["function"]["arguments"]` (a JSON text). -/
structure ToolCallReq where
  id : String
  name : String
  arguments : String
deriving Repr, DecidableEq

/-- The `Message` record (timestamp and free-form metadata omitted: no
claim observes them).  `tool_calls = []` stands for the Python `None` /
empty cases, both falsy under `if not assistant_msg.tool_calls`. -/
structure Message where
  role : Role
  content : Option String := none
  name : Option String := none
  tool_call_id : Option String := none
  tool_calls : List ToolCallReq := []
deriving Repr, DecidableEq

/-- `Message.user(content)`. -/
def Message.mkUser (content : String) : Message :=
  { role := Role.user, content := some content }

/-- `Message.system(content)`. -/
def Message.mkSystem (content : String) : Message :=
  { role := Role.system, content := some content }

/-- `Message.assistant(content)`. -/
def Message.mkAssistant (content : String) : Message :=
  { role := Role.assistant, content := some content }

/-- `Message.tool(content, tool_call_id)`. -/
def Message.mkTool (content : String) (tool_call_id : String) : Message :=
  { role := Role.tool, content := some content, tool_call_id := some tool_call_id }

/-- One scripted reply of the chat-client collaborator: per the client
contract (spec section 6) each non-streaming `generate` call yields one
assistant message, with content and/or pending tool calls. -/
structure LLMReply where
  content : Option String := none
  tool_calls : List ToolCallReq := []
deriving Repr, DecidableEq

/-- The assistant `Message` carried by a scripted reply. -/
def LLMReply.toMessage (r : LLMReply) : Message :=
  { role := Role.assistant, content := r.content, tool_calls := r.tool_calls }

/-- `json.dumps` string escaping for the modelled fragment. -/
def escapeJsonChars : List Char → List Char
  | [] => []
  | c :: cs =>
    if c = '"' then '\\' :: '"' :: escapeJsonChars cs
    else if c = '\\' then '\\' :: '\\' :: escapeJsonChars cs
    else if c = '\n' then '\\' :: 'n' :: escapeJsonChars cs
    else if c = '\t' then '\\' :: 't' :: escapeJsonChars cs
    else if c = '\r' then '\\' :: 'r' :: escapeJsonChars cs
    else c :: escapeJsonChars cs

mutual

/-- `json.dumps` with default separators, on the modelled fragment. -/
def dumpJson : Json → String
  | Json.null => "null"
  | Json.bool true => "true"
  | Json.bool false => "false"
  | Json.int n => toString n
  | Json.str s => "\"" ++ String.mk (escapeJsonChars s.data) ++ "\""
  | Json.arr xs => "[" ++ dumpJsonList xs ++ "]"
  | Json.obj kvs => "\x7b" ++ dumpJsonPairs kvs ++ "\x7d"

/-- Comma-joined array items of `dumpJson`. -/
def dumpJsonList : List Json → String
  | [] => ""
  | [x] => dumpJson x
  | x :: xs => dumpJson x ++ ", " ++ dumpJsonList xs

/-- Comma-joined object pairs of `dumpJson`. -/
def dumpJsonPairs : List (String × Json) → String
  | [] => ""
  | [(k, v)] => "\"" ++ String.mk (escapeJsonChars k.data) ++ "\": " ++ dumpJson v
  | (k, v) :: kvs =>
    "\"" ++ String.mk (escapeJsonChars k.data) ++ "\": " ++ dumpJson v ++ ", " ++ dumpJsonPairs kvs

end

/-- Python `str()` of a tool result, used when a result is interpolated
into an observation or message (`f"TOOL_RESULT:\x7bresult\x7d"` and
kin).  Strings pass through; for containers the JSON rendering stands in
for the Python repr (no claim inspects rendered container text). -/
def pyStr : Json → String
  | Json.str s => s
  | Json.bool true => "True"
  | Json.bool false => "False"
  | Json.null => "None"
  | v => dumpJson v

/-- A registered tool at the agent boundary: its unique name, description
and rendered argument list (used only for prompt text), and the wrapped
callable.  `run` is called on the parsed keyword-argument object; a
raised exception is an `Except.error` carrying `str(e)`.  Keyword
expansion of a non-object (`tool(**args)` with a non-mapping) raises
`TypeError` before the callable body runs, which `invokeTool` folds into
the same error channel. -/
structure AgentTool where
  name : String
  description : String := ""
  argsText : String := ""
  run : Json → Except String Json

/-- `tool(**params)`: keyword expansion then the callable itself. -/
def invokeTool (t : AgentTool) (args : Json) : Except String Json :=
  match args with
  | Json.obj _ => t.run args
  | _ => Except.error "argument after ** must be a mapping"

/-- `Agent.tool_by_names`: a dict comprehension keyed by name, so the
last-registered tool wins on a name collision. -/
def toolByName (tools : List AgentTool) (n : String) : Option AgentTool :=
  tools.reverse.find? (fun t => t.name = n)

/-- `Agent.tool_descriptions`: one `name(args) - description` line per
tool, in registration order. -/
def toolDescriptions (tools : List AgentTool) : String :=
  String.intercalate "\n" (tools.map (fun t => t.name ++ "(" ++ t.argsText ++ ") - " ++ t.description))

/-- The fatal conditions an agent run can surface: a failed model call
(`LLMCallError`), `ToolNotFoundError`, `ToolCallError`, an exhausted turn
budget (`RuntimeError` in the function-calling agent), a Python
`NameError` from dereferencing an unbound local, and a pydantic
validation failure when a non-string final answer is written into a
`Message`. -/
inductive RunErr where
  | llmCallFailed : RunErr
  | toolNotFound (name : String) : RunErr
  | toolCall (msg : String) : RunErr
  | turnBudget : RunErr
  | nameError : RunErr
  | validation : RunErr
deriving Repr, DecidableEq

/-!
## The chat client (`src/vero/core/chat_openai.py`), non-streaming path
-/

/-- The SDK message inside a chat-completion choice. -/
structure SDKMessage where
  content : Option String := none
  tool_calls : List ToolCallReq := []
deriving Repr, DecidableEq

/-- One choice of the SDK response. -/
structure SDKChoice where
  message : SDKMessage
deriving Repr, DecidableEq

/-- The token-usage block of the SDK response. -/
structure SDKUsage where
  prompt_tokens : Nat
  completion_tokens : Nat
  total_tokens : Nat
deriving Repr, DecidableEq

/-- The SDK chat-completion response. -/
structure ChatCompletion where
  choices : List SDKChoice
  usage : Option SDKUsage := none
deriving Repr, DecidableEq

/-- The two representations a non-streaming `generate` could hand back to
callers: a framework `Message`, or the bare `response.choices[0].message.content`
value (a string or `None`). -/
inductive GenReturn where
  | message (m : Message) : GenReturn
  | rawContent (s : Option String) : GenReturn
deriving Repr, DecidableEq

/-- `ChatOpenAI.generate` with `stream=False`, given the SDK response of a
successful API call: the source returns `response.choices[0].message.content`
directly (`return response.choices[0].message.content`), building no
`Message` and attaching no usage metadata.  An empty `choices` list would
raise `IndexError`, caught by the surrounding handler and re-raised as
`LLMCallError`. -/
def chatGenerate (resp : ChatCompletion) : Except RunErr GenReturn :=
  match resp.choices with
  | c :: _ => Except.ok (GenReturn.rawContent c.message.content)
  | [] => Except.error RunErr.llmCallFailed

/-!
## SimpleAgent (`src/vero/agents/simple_agent.py`)
-/

/-- `\w` of the tag pattern `TOOL_CALL:(\w+):(.+)`. -/
def isWordChar (c : Char) : Bool :=
  c.isAlphanum || c = '_'

/-- Leftmost match of `TOOL_CALL:(\w+):(.+)` (no DOTALL: the parameter
group stops at the first newline).  The scanner advances one character on
a failed attempt, as the regex engine does; both groups need at least one
character. -/
def scanToolCallTag : List Char → Option (String × String)
  | [] => none
  | cs@(_ :: rest) =>
    if startsWithCL "TOOL_CALL:".data cs then
      let after := cs.drop 10
      let nm := after.takeWhile isWordChar
      let after2 := after.drop nm.length
      match after2 with
      | ':' :: restP =>
        let ps := restP.takeWhile (fun c => c ≠ '\n')
        if nm.isEmpty || ps.isEmpty then scanToolCallTag rest
        else some (String.mk nm, String.mk ps)
      | _ => scanToolCallTag rest
    else scanToolCallTag rest

/-- `SimpleAgent._parse_tool_call`: detect the tag, then parse the
parameter text with `json.loads` first and `ast.literal_eval` as
fallback; `none` in the second component is the both-parsers-failed
case.  The overall `none` is the no-tag case (`has_call = False`). -/
def parseToolCall (text : String) : Option (String × Option Json) :=
  match scanToolCallTag text.data with
  | none => none
  | some (nm, raw) =>
    let s := strTrim raw
    some (nm, match jsonLoads s with
      | some v => some v
      | none => literalEval s)

/-- The observable outcome of `SimpleAgent.run`: the returned answer or
the raised exception, the final conversation history, the number of
model calls issued, and the tool invocations performed (name and parsed
keyword-argument object), in order. -/
structure SimpleOut where
  result : Except RunErr String
  history : List Message
  llmCalls : Nat
  invocations : List (String × Json)

/-- `SimpleAgent.run`, driven by the collaborator script.  Steps follow
the source: append the user message; one model call; scan for the tag;
absent tag, return the content.  With a tag, `_handle_tool_call` checks
tool existence first (`ToolNotFoundError` is fatal here), then that the
parameters are an object (`ToolCallError` otherwise), invokes the tool
(a raised exception becomes a fatal `ToolCallError`), appends the
`TOOL_RESULT:` user-role evidence message, issues exactly one follow-up
model call and returns its content.  An exhausted script is a failed
model call. -/
def simpleRun (tools : List AgentTool) (script : List LLMReply)
    (hist0 : List Message) (userInput : String) : SimpleOut :=
  let hist1 := hist0 ++ [Message.mkUser userInput]
  match script with
  | [] => ⟨Except.error RunErr.llmCallFailed, hist1, 1, []⟩
  | r :: rest =>
    let hist2 := hist1 ++ [r.toMessage]
    let content := r.content.getD ""
    match parseToolCall content with
    | none => ⟨Except.ok content, hist2, 1, []⟩
    | some (toolName, paramsOpt) =>
      match toolByName tools toolName with
      | none => ⟨Except.error (RunErr.toolNotFound toolName), hist2, 1, []⟩
      | some t =>
        match paramsOpt with
        | some (Json.obj kvs) =>
          match invokeTool t (Json.obj kvs) with
          | Except.error e =>
            ⟨Except.error (RunErr.toolCall ("Tool execution failed: " ++ e)), hist2, 1,
              [(toolName, Json.obj kvs)]⟩
          | Except.ok result =>
            let hist3 := hist2 ++ [Message.mkUser ("TOOL_RESULT:" ++ pyStr result)]
            match rest with
            | [] => ⟨Except.error RunErr.llmCallFailed, hist3, 2, [(toolName, Json.obj kvs)]⟩
            | r2 :: _ =>
              ⟨Except.ok (r2.content.getD ""), hist3 ++ [r2.toMessage], 2,
                [(toolName, Json.obj kvs)]⟩
        | _ =>
          ⟨Except.error (RunErr.toolCall "Tool parameters must be provided as an object/dict."),
            hist2, 1, []⟩

/-!
## ReActAgent (`src/vero/agents/react_agent.py`)
-/

/-- Split the input at the first occurrence of `pat`, returning the text
after it, or `none` when `pat` does not occur. -/
def findSubstrAfter (pat : List Char) : List Char → Option (List Char)
  | [] => if pat.isEmpty then some [] else none
  | cs@(_ :: rest) =>
    if startsWithCL pat cs then some (cs.drop pat.length)
    else findSubstrAfter pat rest

/-- Text strictly before the first occurrence of `pat`, or `none`. -/
def findSubstrBefore (pat : List Char) : List Char → Option (List Char)
  | [] => if pat.isEmpty then some [] else none
  | cs@(c :: rest) =>
    if startsWithCL pat cs then some []
    else (findSubstrBefore pat rest).map (fun pre => c :: pre)

/-- The thought extraction `re.search(r"Thought:\s*(.+?)\s*Action:", content,
re.DOTALL)`: the (stripped) text between the first `Thought:` and the
next `Action:`, or the empty string.  Feeds only the scratchpad. -/
def extractThought (text : String) : String :=
  match findSubstrAfter "Thought:".data text.data with
  | none => ""
  | some after =>
    match findSubstrBefore "Action:".data after with
    | none => ""
    | some mid => strTrim (String.mk mid)

/-- Find a marker that starts a line (`re.MULTILINE` anchored `^`),
returning the text after it. -/
def findLineMarkerAfter (pat : List Char) : List Char → Bool → Option (List Char)
  | [], _ => none
  | cs@(c :: rest), atStart =>
    if atStart && startsWithCL pat cs then some (cs.drop pat.length)
    else findLineMarkerAfter pat rest (c = '\n')

/-- Is the text whitespace up to the next newline (or the end)?  This is
the `\s*$` tail condition of the Action Input pattern under
`re.MULTILINE`. -/
def wsToLineEnd : List Char → Bool
  | [] => true
  | c :: cs => if c = '\n' then true else (c.isWhitespace && wsToLineEnd cs)

/-- Longest prefix ending in a `\x7d` whose remaining suffix satisfies
`wsToLineEnd`: the greedy `.*` of `(\x7b.*\x7d)\s*$` under `re.DOTALL`
stretches the group to the last such closing brace. -/
def takeToLastValidBrace : List Char → Option (List Char)
  | [] => none
  | c :: rest =>
    match takeToLastValidBrace rest with
    | some pre => some (c :: pre)
    | none => if c = '\x7d' && wsToLineEnd rest then some [c] else none

/-- `ReActAgent._parse_react_step`.  The `Action:` line: the first line
beginning with `Action:`, its remainder stripped (the degenerate regex
backtracking case of a whitespace-only remainder spilling onto following
lines is outside the modelled fragment and reported as missing).  The
`Action Input:` block: from the first line beginning with `Action
Input:`, skip whitespace, require an opening brace, and extend the group
to the last closing brace whose line-tail is whitespace; the group must
then parse as strict JSON.  Errors carry the messages of the raised
`ValueError`s. -/
def parseReactStep (text : String) : Except String (String × Json) :=
  match findLineMarkerAfter "Action:".data text.data true with
  | none => Except.error "Missing Action field in ReAct output."
  | some afterAction =>
    let action := strTrim (String.mk (afterAction.takeWhile (fun c => c ≠ '\n')))
    if action = "" then Except.error "Missing Action field in ReAct output."
    else
      match findLineMarkerAfter "Action Input:".data text.data true with
      | none => Except.error "Missing or invalid Action Input field."
      | some afterMarker =>
        match skipWs afterMarker with
        | '\x7b' :: body =>
          match takeToLastValidBrace body with
          | none => Except.error "Missing or invalid Action Input field."
          | some grp =>
            let raw := String.mk ('\x7b' :: grp)
            match jsonLoads raw with
            | some v => Except.ok (action, v)
            | none => Except.error "Action Input is not valid JSON"
        | _ => Except.error "Missing or invalid Action Input field."

/-- Pieces of `ReActAgent.DEFAULT_SYSTEM_PROMPT` around its two format
slots.  The long literal rule text between the slots and the end is
abridged: every claim treats prompt text as opaque. -/
def reactPromptPart1 : String :=
  "\nYou are a ReAct-style agent.\n\nYou have access to the following tools:\n"

/-- Template text between the tool list and the scratchpad slot. -/
def reactPromptPart2 : String :=
  "\n\nYou reason step by step using the following loop:\nThought -> Action -> Action Input -> Observation\n\nPrevious steps (do NOT repeat them, continue from here):\n"

/-- Template text after the scratchpad slot (rule text abridged). -/
def reactPromptPart3 : String :=
  "\n\nFollow the rules STRICTLY. [response-format rules and examples]\n"

/-- `ReActAgent._build_system_prompt`: the default template formatted with
the tool descriptions and the current scratchpad. -/
def buildReactSystemPrompt (tools : List AgentTool) (scratchpad : String) : String :=
  reactPromptPart1 ++ toolDescriptions tools ++ reactPromptPart2 ++ scratchpad ++ reactPromptPart3

/-- The observable outcome of `ReActAgent.run`. -/
structure ReactOut where
  result : Except RunErr String
  history : List Message
  llmCalls : Nat

/-- The scratchpad block appended after a tool step (the f-string of step
8 of `run`, with its literal indentation). -/
def scratchBlock (thought action : String) (actionInput : Json) (observation : String) : String :=
  "\n    Thought: " ++ thought ++ "\n    Action: " ++ action ++ "\n    Action Input: "
    ++ dumpJson actionInput ++ "\n    Observation: " ++ observation ++ "\n    "

/-- The loop of `ReActAgent.run`, one recursive call per turn.

State threaded between turns: the scratchpad; `prevStep`, the values of
the Python locals `action` / `action_input` from the last successful
parse (`none` while they are unbound — when `_parse_react_step` raises,
the source only sets `observation = content` and falls through to the
finish check `action.lower() == "finish"`, so with no prior binding that
check raises `NameError`, and with a prior binding the stale action is
re-dispatched, its fresh observation replacing the failure one);
`lastReply`, the Python local `assistant_msg` (unbound before the first
model call, which makes the post-loop `assistant_msg.content` a
`NameError` when `max_turns` is zero).

Per turn: rebuild the system prompt and rewrite `history[0]` in place
when it is a system message, else insert one; one model call; parse;
finish check (`action.lower() == "finish"` — the answer value must be a
string for `Message.assistant` validation, and a missing `answer` key
falls back to the raw content); otherwise dispatch the tool
(`ToolNotFoundError` / `ToolCallError` are caught and become the
observation) and extend the scratchpad.  After the last turn the last
raw content is returned as a best-effort answer. -/
def reactRunAux (tools : List AgentTool) (script : List LLMReply) (hist : List Message)
    (scratch : String) (prevStep : Option (String × Json)) (lastReply : Option LLMReply)
    (calls : Nat) : Nat → ReactOut
  | 0 =>
    match lastReply with
    | none => ⟨Except.error RunErr.nameError, hist, calls⟩
    | some r =>
      let fa := r.content.getD ""
      ⟨Except.ok fa, hist ++ [Message.mkAssistant fa], calls⟩
  | turnsLeft + 1 =>
    let prompt := buildReactSystemPrompt tools scratch
    let hist1 := match hist with
      | m :: t =>
        if m.role = Role.system then { m with content := some prompt } :: t
        else Message.mkSystem prompt :: m :: t
      | [] => [Message.mkSystem prompt]
    match script with
    | [] => ⟨Except.error RunErr.llmCallFailed, hist1, calls⟩
    | r :: rest =>
      let content := r.content.getD ""
      let step := match parseReactStep content with
        | Except.ok s => some s
        | Except.error _ => prevStep
      match step with
      | none => ⟨Except.error RunErr.nameError, hist1, calls + 1⟩
      | some (action, actionInput) =>
        if strLower action = "finish" then
          match actionInput.get "answer" with
          | some (Json.str s) => ⟨Except.ok s, hist1 ++ [Message.mkAssistant s], calls + 1⟩
          | some _ => ⟨Except.error RunErr.validation, hist1, calls + 1⟩
          | none => ⟨Except.ok content, hist1 ++ [Message.mkAssistant content], calls + 1⟩
        else
          let observation := match toolByName tools action with
            | none => "Unknown tool: " ++ action
            | some t =>
              match invokeTool t actionInput with
              | Except.ok result => pyStr result
              | Except.error e => "Tool execution failed: " ++ e
          let scratch2 := scratch ++ scratchBlock (extractThought content) action actionInput observation
          reactRunAux tools rest hist1 scratch2 (some (action, actionInput)) (some r) (calls + 1) turnsLeft

/-- `ReActAgent.run`: append the user message, then iterate `max_turns`
times. -/
def reactRun (tools : List AgentTool) (maxTurns : Nat) (script : List LLMReply)
    (hist0 : List Message) (userInput : String) : ReactOut :=
  reactRunAux tools script (hist0 ++ [Message.mkUser userInput]) "" none none 0 maxTurns

/-!
## OpenAIFunctionAgent (`src/vero/agents/openai_function_agent.py`)
-/

/-- The observable outcome of `OpenAIFunctionAgent.run`. -/
structure FuncOut where
  result : Except RunErr String
  history : List Message
  llmCalls : Nat

/-- The per-turn tool loop of `OpenAIFunctionAgent.run`: for each pending
call, parse the JSON arguments (malformed text degrades to an empty
object), resolve the tool by name (a miss raises `ToolNotFoundError`,
aborting the run with the earlier result messages already appended),
invoke it (a raised exception becomes the error-string result), and
append a tool-role message carrying the originating `tool_call_id`. -/
def execToolCalls (tools : List AgentTool) : List ToolCallReq → List Message →
    List Message × Option RunErr
  | [], hist => (hist, none)
  | tc :: rest, hist =>
    let args := (jsonLoads tc.arguments).getD (Json.obj [])
    match toolByName tools tc.name with
    | none => (hist, some (RunErr.toolNotFound tc.name))
    | some t =>
      let output := match invokeTool t args with
        | Except.ok v => pyStr v
        | Except.error e => "Tool execution failed: " ++ e
      execToolCalls tools rest (hist ++ [Message.mkTool output tc.id])

/-- The loop of `OpenAIFunctionAgent.run`: each turn issues one model
call (with the tool schemas, which the scripted collaborator absorbs);
an assistant message with no pending tool calls is the final answer; one
with pending calls runs `execToolCalls` and loops.  Falling off the loop
raises `RuntimeError("Reached max_turns without producing a final
answer")`, the turn-budget condition. -/
def funcRunAux (tools : List AgentTool) : List LLMReply → List Message → Nat → Nat → FuncOut
  | _, hist, calls, 0 => ⟨Except.error RunErr.turnBudget, hist, calls⟩
  | script, hist, calls, turnsLeft + 1 =>
    match script with
    | [] => ⟨Except.error RunErr.llmCallFailed, hist, calls⟩
    | r :: rest =>
      let hist1 := hist ++ [r.toMessage]
      match r.tool_calls with
      | [] => ⟨Except.ok (r.content.getD ""), hist1, calls + 1⟩
      | tcs =>
        match execToolCalls tools tcs hist1 with
        | (hist2, some e) => ⟨Except.error e, hist2, calls + 1⟩
        | (hist2, none) => funcRunAux tools rest hist2 (calls + 1) turnsLeft

/-- `OpenAIFunctionAgent.run`. -/
def funcRun (tools : List AgentTool) (maxTurns : Nat) (script : List LLMReply)
    (hist0 : List Message) (userQuery : String) : FuncOut :=
  funcRunAux tools script (hist0 ++ [Message.mkUser userQuery]) 0 maxTurns

/-- `Agent.clear_history`: reset the history to empty. -/
def clearHistory (_hist : List Message) : List Message := []

/-!
## Theorems

Helper lemmas first, then one theorem per claim (with witnesses and
counterexamples where required).
-/

/-- The branch condition of the `Optional` case of
`_annotation_to_schema`: a `Union` whose arguments contain `NoneType`
and have exactly one non-`None` member. -/
def isOptionalUnion : Ann → Bool
  | Ann.union args => args.any Ann.isNone && ((args.filter (fun a => !a.isNone)).length == 1)
  | _ => false

lemma annToSchema_snd (a : Ann) (d : Bool) :
    (annToSchema a d).2 = (d && !isOptionalUnion a) := by
  cases a
  case union args =>
    simp only [annToSchema]
    split
    next hany =>
      split
      next t hfil => simp [isOptionalUnion, hany, hfil]
      next hne =>
        rcases hfil : args.filter (fun x => !x.isNone) with _ | ⟨t, _ | ⟨t2, rest2⟩⟩
        · simp [isOptionalUnion, hany, hfil]
        · exact (hne t hfil).elim
        · simp [isOptionalUnion, hany, hfil]
    next hany => simp [isOptionalUnion, hany]
  all_goals simp [annToSchema, isOptionalUnion]

/-- The Boolean a parameter contributes to `required`. -/
def paramRequiredFlag (p : Param) : Bool :=
  p.dflt.isNoneAfterFlatten && !isOptionalUnion p.ann

lemma schemaLoop_required (ps : List Param) :
    (schemaLoop ps).2
      = (ps.filter (fun p => p.name != "self" && paramRequiredFlag p)).map Param.name := by
  induction ps with
  | nil => simp [schemaLoop]
  | cons p rest ih =>
    have h2 : (annToSchema p.ann p.dflt.isNoneAfterFlatten).2 = paramRequiredFlag p := by
      rw [annToSchema_snd]; rfl
    by_cases hself : p.name = "self"
    · simp [schemaLoop, hself, ih]
    · by_cases hflag : paramRequiredFlag p
      · simp [schemaLoop, hself, ih, h2, hflag]
      · simp [schemaLoop, hself, ih, h2, hflag]

/-- C3 (counterexample): the parameter `a : int = None` carries a default,
yet its name appears in the generated `required` list — the source
flattens an explicit `None` default into the same value as "no default"
before testing `default is None`. -/
theorem required_contains_param_with_none_default :
    (⟨"a", Ann.int, Dflt.noneV⟩ : Param).dflt ≠ Dflt.absent
      ∧ (toOpenAISchema ⟨"f", "doc", [⟨"a", Ann.int, Dflt.noneV⟩]⟩).required = ["a"] := by
  refine ⟨by decide, ?_⟩
  show (schemaLoop [⟨"a", Ann.int, Dflt.noneV⟩]).2 = ["a"]
  rw [schemaLoop_required]
  rfl

/-- C3 (amended): the `required` list of `to_openai_schema` holds exactly
the names of the non-`self` parameters whose annotation is not a
single-member nullable union and whose default is absent **or is the
explicit value `None`** (the source cannot tell the two apart); a
parameter with any non-`None` default is never required. -/
theorem required_is_flattened_none_defaults (name descr : String) (ps : List Param) :
    (toOpenAISchema ⟨name, descr, ps⟩).required
      = (ps.filter (fun p =>
          p.name != "self" && (p.dflt.isNoneAfterFlatten && !isOptionalUnion p.ann))).map
            Param.name := by
  show (schemaLoop ps).2 = _
  rw [schemaLoop_required]
  rfl

/-- C4 (counterexample): `Union[int, str, None]` is a nullable union, but
with two non-`None` members it falls through to the string fallback
(no `anyOf`), and with no default the parameter is required. -/
theorem multi_member_nullable_union_not_anyof :
    annToSchema (Ann.union [Ann.int, Ann.str, Ann.noneT]) true = (Sch.prim "string", true)
      ∧ (toOpenAISchema
          ⟨"f", "doc", [⟨"x", Ann.union [Ann.int, Ann.str, Ann.noneT], Dflt.absent⟩]⟩).required
        = ["x"] := by
  constructor
  · simp only [annToSchema]
    split
    next =>
      split
      next t hfil => simp [List.filter, Ann.isNone] at hfil
      next => rfl
    next hany => exact (hany (by decide)).elim
  · show (schemaLoop _).2 = _
    rw [schemaLoop_required]
    rfl

/-- C4 (amended): a nullable union with exactly one non-`None` member
(`Optional[T]`) maps to `anyOf` of the underlying schema and the null
schema, and — whatever its default — the parameter never appears in the
`required` list. -/
theorem optional_union_anyof_never_required (args : List Ann) (t : Ann) (d : Bool)
    (hany : args.any Ann.isNone = true)
    (hfil : args.filter (fun a => !a.isNone) = [t]) :
    annToSchema (Ann.union args) d
        = (Sch.anyOf (annToSchema t true).1 (Sch.prim "null"), false)
      ∧ ∀ (nm descr pname : String) (dl : Dflt),
          (toOpenAISchema ⟨nm, descr, [⟨pname, Ann.union args, dl⟩]⟩).required = [] := by
  constructor
  · simp only [annToSchema]
    split
    next =>
      split
      next t2 hfil2 =>
        rw [hfil] at hfil2
        simp only [List.cons.injEq, and_true] at hfil2
        rw [hfil2]
      next hne => exact (hne t hfil).elim
    next hany2 => exact (hany2 hany).elim
  · intro nm descr pname dl
    show (schemaLoop _).2 = _
    rw [schemaLoop_required]
    simp [paramRequiredFlag, isOptionalUnion, hany, hfil]

/-- C4 (witness). -/
theorem optional_union_anyof_never_required_witness :
    annToSchema (Ann.union [Ann.int, Ann.noneT]) false
        = (Sch.anyOf (annToSchema Ann.int true).1 (Sch.prim "null"), false)
      ∧ (toOpenAISchema
          ⟨"g", "doc", [⟨"p", Ann.union [Ann.int, Ann.noneT], Dflt.value⟩]⟩).required = [] := by
  have h := optional_union_anyof_never_required [Ann.int, Ann.noneT] Ann.int false rfl rfl
  exact ⟨h.1, h.2 "g" "doc" "p" Dflt.value⟩

/-- An addition tool used by concrete run scenarios. -/
def addTool : AgentTool :=
  { name := "add", description := "Add two integers.", argsText := "a: int, b: int",
    run := fun j =>
      match j.get "a", j.get "b" with
      | some (Json.int a), some (Json.int b) => Except.ok (Json.int (a + b))
      | _, _ => Except.error "bad arguments" }

/-- A tool whose invocation raises, used by failure scenarios. -/
def boomTool : AgentTool :=
  { name := "boom", description := "Always raises.", argsText := "",
    run := fun _ => Except.error "kaboom" }

/-- C1 (code_bug): on a successful non-streaming call whose first choice
carries the content `"Hello, world!"` (and usage counters 10/5/15), the
source `generate` returns the bare content value — not an assistant
`Message` — and attaches no usage metadata; the repository test
`test_generate_returns_message` asserts `isinstance(result, Message)`
with `result.metadata["usage"]` on this very response, so the code
contradicts its own test suite (and every agent, which immediately reads
`.content` off the result). -/
theorem generate_returns_raw_content_not_message :
    chatGenerate ⟨[⟨⟨some "Hello, world!", []⟩⟩], some ⟨10, 5, 15⟩⟩
        = Except.ok (GenReturn.rawContent (some "Hello, world!"))
      ∧ ∀ m : Message,
          chatGenerate ⟨[⟨⟨some "Hello, world!", []⟩⟩], some ⟨10, 5, 15⟩⟩
            ≠ Except.ok (GenReturn.message m) := by
  refine ⟨rfl, ?_⟩
  intro m h
  exact GenReturn.noConfusion (Except.ok.inj h)

/-- C2 (code_bug): when the very first model response fails the
Action/Action-Input parse (here: no `Action:` line at all), the run does
not continue with the raw text as observation — the failure path only
sets `observation = content` and then evaluates the finish check
`action.lower() == "finish"` with the local `action` never bound, so the
run dies with a `NameError` after exactly one model call. -/
theorem react_parse_failure_first_turn_raises_nameerror :
    (reactRun [addTool] 3 [{ content := some "I cannot determine the next step." }] []
        "question").result = Except.error RunErr.nameError
      ∧ (reactRun [addTool] 3 [{ content := some "I cannot determine the next step." }] []
          "question").llmCalls = 1 :=
  ⟨rfl, rfl⟩

/-- C7 (counterexample): a well-formed tag naming the registered tool
`boom` with the object payload `\x7b\x7d` satisfies every hypothesis of the
claim, yet the invocation raises, `ToolCallError` propagates out of
`run`, and no follow-up model call is made (one model call total, no
returned content). -/
theorem simple_agent_raising_tool_aborts_without_followup :
    (simpleRun [boomTool] [{ content := some "TOOL_CALL:boom:\x7b\x7d" },
        { content := some "unused" }] [] "q").result
        = Except.error (RunErr.toolCall "Tool execution failed: kaboom")
      ∧ (simpleRun [boomTool] [{ content := some "TOOL_CALL:boom:\x7b\x7d" },
          { content := some "unused" }] [] "q").llmCalls = 1 :=
  ⟨rfl, rfl⟩

/-- C8 (counterexample): with `max_turns = 1` and a first response that
carries no Finish action because it parses as nothing at all, the run
does not return the raw content — it hits the unbound-`action` finish
check and dies with a `NameError` (the same latent fault as the parse
failure path). -/
theorem react_max_turns_one_unparseable_not_raw_content :
    (reactRun [addTool] 1 [{ content := some "gibberish with no action line" }] []
        "q").result = Except.error RunErr.nameError
      ∧ (reactRun [addTool] 1 [{ content := some "gibberish with no action line" }] []
          "q").result ≠ Except.ok "gibberish with no action line" :=
  ⟨rfl, fun h => Except.noConfusion h⟩

/-- C6 (confirmed): whenever a model response parses to the Finish action
with input object `\x7b"answer": X\x7d` (a string answer), `run` returns
exactly `X` — at the first turn (a) and from any mid-run loop state (b);
and when the parsed input object has no `answer` key, the raw response
content is returned instead (c). -/
theorem react_finish_returns_answer :
    (∀ (tools : List AgentTool) (rest : List LLMReply) (hist0 : List Message)
        (userInput resp : String) (inp : Json) (x : String) (n : Nat),
        parseReactStep resp = Except.ok ("Finish", inp) →
        inp.get "answer" = some (Json.str x) →
        (reactRun tools (n + 1) ({ content := some resp } :: rest) hist0 userInput).result
          = Except.ok x)
      ∧ (∀ (tools : List AgentTool) (rest : List LLMReply) (hist : List Message)
          (scratch : String) (prevStep : Option (String × Json)) (lastReply : Option LLMReply)
          (calls turnsLeft : Nat) (resp : String) (inp : Json) (x : String),
          parseReactStep resp = Except.ok ("Finish", inp) →
          inp.get "answer" = some (Json.str x) →
          (reactRunAux tools ({ content := some resp } :: rest) hist scratch prevStep lastReply
              calls (turnsLeft + 1)).result = Except.ok x)
      ∧ (∀ (tools : List AgentTool) (rest : List LLMReply) (hist : List Message)
          (scratch : String) (prevStep : Option (String × Json)) (lastReply : Option LLMReply)
          (calls turnsLeft : Nat) (resp : String) (inp : Json),
          parseReactStep resp = Except.ok ("Finish", inp) →
          inp.get "answer" = none →
          (reactRunAux tools ({ content := some resp } :: rest) hist scratch prevStep lastReply
              calls (turnsLeft + 1)).result = Except.ok resp) := by
  have hl : strLower "Finish" = "finish" := rfl
  refine ⟨?_, ?_, ?_⟩
  · intro tools rest hist0 userInput resp inp x n hparse hans
    unfold reactRun
    simp [reactRunAux, hparse, hans, hl]
  · intro tools rest hist scratch prevStep lastReply calls turnsLeft resp inp x hparse hans
    simp [reactRunAux, hparse, hans, hl]
  · intro tools rest hist scratch prevStep lastReply calls turnsLeft resp inp hparse hans
    simp [reactRunAux, hparse, hans, hl]

/-- C6 (witness). -/
theorem react_finish_returns_answer_witness :
    parseReactStep "Thought: done\nAction: Finish\nAction Input: \x7b\"answer\": \"42\"\x7d"
        = Except.ok ("Finish", Json.obj [("answer", Json.str "42")])
      ∧ (Json.obj [("answer", Json.str "42")]).get "answer" = some (Json.str "42")
      ∧ (reactRun [addTool] 1
          [{ content := some "Thought: done\nAction: Finish\nAction Input: \x7b\"answer\": \"42\"\x7d" }]
          [] "what is 6 times 7").result = Except.ok "42" :=
  ⟨rfl, rfl, react_finish_returns_answer.1 [addTool] [] [] "what is 6 times 7"
    "Thought: done\nAction: Finish\nAction Input: \x7b\"answer\": \"42\"\x7d"
    (Json.obj [("answer", Json.str "42")]) "42" 0 rfl rfl⟩

/-- C8 (amended): with `max_turns = 1` and a first response that parses
to a non-Finish action, `run` makes exactly one model call and returns
that response raw content as a best-effort answer.  (The unconditional
claim fails: a response that does not parse at all also carries no
Finish action, and there the run raises `NameError` instead — see the
counterexample.) -/
theorem react_max_turns_one_single_call_raw_content (tools : List AgentTool)
    (hist0 : List Message) (userInput resp : String) (rest : List LLMReply) (a : String)
    (inp : Json)
    (hparse : parseReactStep resp = Except.ok (a, inp))
    (hnf : strLower a ≠ "finish") :
    (reactRun tools 1 ({ content := some resp } :: rest) hist0 userInput).result
        = Except.ok resp
      ∧ (reactRun tools 1 ({ content := some resp } :: rest) hist0 userInput).llmCalls = 1 := by
  unfold reactRun
  simp [reactRunAux, hparse, hnf]

/-- C8 (witness). -/
theorem react_max_turns_one_single_call_raw_content_witness :
    parseReactStep "Thought: t\nAction: add\nAction Input: \x7b\"a\": 1, \"b\": 2\x7d"
        = Except.ok ("add", Json.obj [("a", Json.int 1), ("b", Json.int 2)])
      ∧ strLower "add" ≠ "finish"
      ∧ ((reactRun [addTool] 1
            [{ content := some "Thought: t\nAction: add\nAction Input: \x7b\"a\": 1, \"b\": 2\x7d" }]
            [] "q").result
          = Except.ok "Thought: t\nAction: add\nAction Input: \x7b\"a\": 1, \"b\": 2\x7d"
        ∧ (reactRun [addTool] 1
            [{ content := some "Thought: t\nAction: add\nAction Input: \x7b\"a\": 1, \"b\": 2\x7d" }]
            [] "q").llmCalls = 1) :=
  ⟨rfl, by decide, react_max_turns_one_single_call_raw_content [addTool] [] "q"
    "Thought: t\nAction: add\nAction Input: \x7b\"a\": 1, \"b\": 2\x7d" []
    "add" (Json.obj [("a", Json.int 1), ("b", Json.int 2)]) rfl (by decide)⟩

/-- The tool-result content produced for one pending call when its tool
is registered (arguments parsed with the empty-object fallback, runtime
failures folded into an error string). -/
def toolOutput (tools : List AgentTool) (tc : ToolCallReq) : String :=
  match toolByName tools tc.name with
  | some t =>
    match invokeTool t ((jsonLoads tc.arguments).getD (Json.obj [])) with
    | Except.ok v => pyStr v
    | Except.error e => "Tool execution failed: " ++ e
  | none => ""

lemma execToolCalls_all_found (tools : List AgentTool) (tcs : List ToolCallReq)
    (hist : List Message)
    (hall : ∀ tc ∈ tcs, (toolByName tools tc.name).isSome = true) :
    execToolCalls tools tcs hist
      = (hist ++ tcs.map (fun tc => Message.mkTool (toolOutput tools tc) tc.id), none) := by
  induction tcs generalizing hist with
  | nil => simp [execToolCalls]
  | cons tc rest ih =>
    have h1 : (toolByName tools tc.name).isSome = true := hall tc (List.mem_cons_self tc rest)
    rcases ht : toolByName tools tc.name with _ | t
    · rw [ht] at h1; simp at h1
    · have h2 : ∀ x ∈ rest, (toolByName tools x.name).isSome = true :=
        fun x hx => hall x (List.mem_cons_of_mem tc hx)
      simp [execToolCalls, ht, ih _ h2, toolOutput]

/-- C5 (confirmed): in a turn whose assistant message carries `K` pending
tool-call requests, all naming registered tools, the loop appends to the
history — after the assistant message itself and before the next model
call — exactly `K` tool-role result messages, the `i`-th carrying the
`tool_call_id` of the `i`-th request. -/
theorem func_agent_k_tool_messages_per_turn (tools : List AgentTool) (r : LLMReply)
    (rest : List LLMReply) (hist : List Message) (calls turnsLeft : Nat)
    (hne : r.tool_calls ≠ [])
    (hall : ∀ tc ∈ r.tool_calls, (toolByName tools tc.name).isSome = true) :
    ∃ msgs : List Message,
      funcRunAux tools (r :: rest) hist calls (turnsLeft + 1)
          = funcRunAux tools rest (hist ++ [r.toMessage] ++ msgs) (calls + 1) turnsLeft
        ∧ msgs.length = r.tool_calls.length
        ∧ ∀ (i : Nat) (hi : i < msgs.length) (hj : i < r.tool_calls.length),
            (msgs.get ⟨i, hi⟩).role = Role.tool
              ∧ (msgs.get ⟨i, hi⟩).tool_call_id = some ((r.tool_calls.get ⟨i, hj⟩).id) := by
  refine ⟨r.tool_calls.map (fun tc => Message.mkTool (toolOutput tools tc) tc.id), ?_, ?_, ?_⟩
  · rcases hr : r.tool_calls with _ | ⟨tc, tcs⟩
    · exact (hne hr).elim
    · rw [← hr]
      simp only [funcRunAux]
      rw [hr]
      have hexec := execToolCalls_all_found tools r.tool_calls (hist ++ [r.toMessage]) hall
      rw [hr] at hexec
      simp [hexec, ← List.append_assoc]
  · simp
  · intro i hi hj
    constructor
    · simp [Message.mkTool]
    · simp [Message.mkTool]

/-- The concrete assistant reply of the C5 witness: two pending calls,
one with well-formed arguments, one with malformed arguments. -/
def c5Reply : LLMReply :=
  { content := none,
    tool_calls := [⟨"id1", "add", "\x7b\"a\": 1, \"b\": 2\x7d"⟩, ⟨"id2", "add", "bad"⟩] }

/-- C5 (witness). -/
theorem func_agent_k_tool_messages_per_turn_witness :
    c5Reply.tool_calls ≠ []
      ∧ (∀ tc ∈ c5Reply.tool_calls, (toolByName [addTool] tc.name).isSome = true)
      ∧ ∃ msgs : List Message,
          funcRunAux [addTool] (c5Reply :: [{ content := some "done" }])
              [Message.mkSystem "s", Message.mkUser "q"] 0 (3 + 1)
            = funcRunAux [addTool] [{ content := some "done" }]
                ([Message.mkSystem "s", Message.mkUser "q"] ++ [c5Reply.toMessage] ++ msgs)
                (0 + 1) 3
          ∧ msgs.length = c5Reply.tool_calls.length
          ∧ ∀ (i : Nat) (hi : i < msgs.length) (hj : i < c5Reply.tool_calls.length),
              (msgs.get ⟨i, hi⟩).role = Role.tool
                ∧ (msgs.get ⟨i, hi⟩).tool_call_id
                    = some ((c5Reply.tool_calls.get ⟨i, hj⟩).id) :=
  ⟨by decide, by decide,
    func_agent_k_tool_messages_per_turn [addTool] c5Reply [{ content := some "done" }]
      [Message.mkSystem "s", Message.mkUser "q"] 0 3 (by decide) (by decide)⟩

lemma funcRunAux_budget (tools : List AgentTool) (n : Nat) :
    ∀ (script : List LLMReply) (hist : List Message) (calls : Nat),
      n ≤ script.length →
      (∀ r ∈ script, r.tool_calls ≠ []
        ∧ ∀ tc ∈ r.tool_calls, (toolByName tools tc.name).isSome = true) →
      (funcRunAux tools script hist calls n).result = Except.error RunErr.turnBudget := by
  induction n with
  | zero => intro script hist calls _ _; simp [funcRunAux]
  | succ n ih =>
    intro script hist calls hlen hall
    rcases script with _ | ⟨r, rest⟩
    · simp at hlen
    · obtain ⟨hne, hreg⟩ := hall r (List.mem_cons_self r rest)
      have hexec := execToolCalls_all_found tools r.tool_calls (hist ++ [r.toMessage]) hreg
      rcases hr : r.tool_calls with _ | ⟨tc, tcs⟩
      · exact (hne hr).elim
      · rw [hr] at hexec
        simp only [funcRunAux]
        rw [hr]
        simp only [hexec]
        exact ih rest _ (calls + 1) (by simpa using hlen)
          (fun x hx => hall x (List.mem_cons_of_mem r hx))

/-- C9 (confirmed): when the collaborator script supplies, for every one
of the `max_turns` turns, an assistant message carrying pending tool
calls (all naming registered tools, so every turn completes and loops),
the run never produces a final text answer and fails with the
turn-budget `RuntimeError` — not a best-effort answer. -/
theorem func_agent_turn_budget_fatal (tools : List AgentTool) (script : List LLMReply)
    (hist0 : List Message) (q : String) (maxTurns : Nat)
    (hlen : maxTurns ≤ script.length)
    (hall : ∀ r ∈ script, r.tool_calls ≠ []
      ∧ ∀ tc ∈ r.tool_calls, (toolByName tools tc.name).isSome = true) :
    (funcRun tools maxTurns script hist0 q).result = Except.error RunErr.turnBudget := by
  unfold funcRun
  exact funcRunAux_budget tools maxTurns script _ 0 hlen hall

/-- C9 (witness). -/
theorem func_agent_turn_budget_fatal_witness :
    (2 : Nat) ≤ ([{ tool_calls := [⟨"i1", "add", "\x7b\"a\": 1, \"b\": 2\x7d"⟩] },
        { tool_calls := [⟨"i2", "add", "\x7b\"a\": 3, \"b\": 4\x7d"⟩] }] : List LLMReply).length
      ∧ (∀ r ∈ ([{ tool_calls := [⟨"i1", "add", "\x7b\"a\": 1, \"b\": 2\x7d"⟩] },
            { tool_calls := [⟨"i2", "add", "\x7b\"a\": 3, \"b\": 4\x7d"⟩] }] : List LLMReply),
          r.tool_calls ≠ [] ∧ ∀ tc ∈ r.tool_calls, (toolByName [addTool] tc.name).isSome = true)
      ∧ (funcRun [addTool] 2
          [{ tool_calls := [⟨"i1", "add", "\x7b\"a\": 1, \"b\": 2\x7d"⟩] },
            { tool_calls := [⟨"i2", "add", "\x7b\"a\": 3, \"b\": 4\x7d"⟩] }] [] "q").result
          = Except.error RunErr.turnBudget :=
  ⟨by decide, by decide,
    func_agent_turn_budget_fatal [addTool] _ [] "q" 2 (by decide) (by decide)⟩

/-- C7 (amended): for a first response containing a well-formed
`TOOL_CALL:name:json-object` tag naming a registered tool, the agent
invokes exactly that tool exactly once with the parsed object as keyword
arguments and — provided the invocation does not raise — makes exactly
one follow-up model call, whose content is returned (a); and no
SimpleAgent run ever makes more than two model calls (b).  (The
unconditional follow-up-call part of the claim fails when the tool
raises: see the counterexample.) -/
theorem simple_agent_one_invocation_two_calls :
    (∀ (tools : List AgentTool) (t : AgentTool) (r2 : LLMReply) (rest : List LLMReply)
        (hist0 : List Message) (q resp toolName : String) (kvs : List (String × Json))
        (out : Json),
        parseToolCall resp = some (toolName, some (Json.obj kvs)) →
        toolByName tools toolName = some t →
        t.run (Json.obj kvs) = Except.ok out →
        (simpleRun tools ({ content := some resp } :: r2 :: rest) hist0 q).result
            = Except.ok (r2.content.getD "")
          ∧ (simpleRun tools ({ content := some resp } :: r2 :: rest) hist0 q).llmCalls = 2
          ∧ (simpleRun tools ({ content := some resp } :: r2 :: rest) hist0 q).invocations
              = [(toolName, Json.obj kvs)])
      ∧ ∀ (tools : List AgentTool) (script : List LLMReply) (hist0 : List Message)
          (q : String), (simpleRun tools script hist0 q).llmCalls ≤ 2 := by
  constructor
  · intro tools t r2 rest hist0 q resp toolName kvs out hparse htool hrun
    simp [simpleRun, hparse, htool, invokeTool, hrun]
  · intro tools script hist0 q
    unfold simpleRun
    rcases script with _ | ⟨r, rest⟩
    · simp
    · rcases hp : parseToolCall (r.content.getD "") with _ | ⟨tn, po⟩
      · simp [hp]
      · rcases ht : toolByName tools tn with _ | t
        · simp [hp, ht]
        · rcases po with _ | v
          · simp [hp, ht]
          · cases v <;> simp [hp, ht]
            rcases hr : invokeTool t (Json.obj _) with e | ok
            · simp
            · rcases rest with _ | ⟨r2, rest2⟩ <;> simp

/-- C7 (witness): the spec scenario — `add(a: int, b: int)`, model emits
`TOOL_CALL:add:\x7b"a": 2, "b": 3\x7d`, follow-up reply references 5. -/
theorem simple_agent_one_invocation_two_calls_witness :
    parseToolCall "TOOL_CALL:add:\x7b\"a\": 2, \"b\": 3\x7d"
        = some ("add", some (Json.obj [("a", Json.int 2), ("b", Json.int 3)]))
      ∧ toolByName [addTool] "add" = some addTool
      ∧ addTool.run (Json.obj [("a", Json.int 2), ("b", Json.int 3)]) = Except.ok (Json.int 5)
      ∧ ((simpleRun [addTool]
            ({ content := some "TOOL_CALL:add:\x7b\"a\": 2, \"b\": 3\x7d" }
              :: ({ content := some "The result is 5" } : LLMReply) :: []) [Message.mkSystem "sys"]
            "add 2 and 3").result
          = Except.ok (({ content := some "The result is 5" } : LLMReply).content.getD "")
        ∧ (simpleRun [addTool]
            ({ content := some "TOOL_CALL:add:\x7b\"a\": 2, \"b\": 3\x7d" }
              :: ({ content := some "The result is 5" } : LLMReply) :: []) [Message.mkSystem "sys"]
            "add 2 and 3").llmCalls = 2
        ∧ (simpleRun [addTool]
            ({ content := some "TOOL_CALL:add:\x7b\"a\": 2, \"b\": 3\x7d" }
              :: ({ content := some "The result is 5" } : LLMReply) :: []) [Message.mkSystem "sys"]
            "add 2 and 3").invocations
            = [("add", Json.obj [("a", Json.int 2), ("b", Json.int 3)])]) :=
  ⟨rfl, rfl, rfl,
    simple_agent_one_invocation_two_calls.1 [addTool] addTool
      { content := some "The result is 5" } [] [Message.mkSystem "sys"] "add 2 and 3"
      "TOOL_CALL:add:\x7b\"a\": 2, \"b\": 3\x7d" "add"
      [("a", Json.int 2), ("b", Json.int 3)] (Json.int 5) rfl rfl rfl⟩

lemma head_map_role_append (l l2 : List Message)
    (h : l.head?.map Message.role = some Role.system) :
    ((l ++ l2).head?).map Message.role = some Role.system := by
  rcases l with _ | ⟨a, t⟩
  · simp at h
  · simpa using h

lemma react_prompt_insert_head (hist : List Message) (prompt : String) :
    ((match hist with
      | m :: t =>
        if m.role = Role.system then { m with content := some prompt } :: t
        else Message.mkSystem prompt :: m :: t
      | [] => [Message.mkSystem prompt]).head?).map Message.role = some Role.system := by
  rcases hist with _ | ⟨m, t⟩
  · simp [Message.mkSystem]
  · by_cases hm : m.role = Role.system <;> simp [hm, Message.mkSystem]

lemma reactRunAux_head_system (tools : List AgentTool) (n : Nat) :
    ∀ (script : List LLMReply) (hist : List Message) (scratch : String)
      (prev : Option (String × Json)) (last : Option LLMReply) (calls : Nat),
      ((reactRunAux tools script hist scratch prev last calls (n + 1)).history.head?).map
          Message.role = some Role.system := by
  induction n with
  | zero =>
    intro script hist scratch prev last calls
    rcases script with _ | ⟨r, rest⟩
    · simp only [reactRunAux]
      exact react_prompt_insert_head hist _
    · simp only [reactRunAux]
      split
      next => exact react_prompt_insert_head hist _
      next a inp =>
        split
        · split
          · exact head_map_role_append _ _ (react_prompt_insert_head hist _)
          · exact react_prompt_insert_head hist _
          · exact head_map_role_append _ _ (react_prompt_insert_head hist _)
        · exact head_map_role_append _ _ (react_prompt_insert_head hist _)
  | succ m ih =>
    intro script hist scratch prev last calls
    rcases script with _ | ⟨r, rest⟩
    · simp only [reactRunAux]
      exact react_prompt_insert_head hist _
    · simp only [reactRunAux]
      split
      next => exact react_prompt_insert_head hist _
      next a inp =>
        split
        · split
          · exact head_map_role_append _ _ (react_prompt_insert_head hist _)
          · exact react_prompt_insert_head hist _
          · exact head_map_role_append _ _ (react_prompt_insert_head hist _)
        · exact ih _ _ _ _ _ _

lemma execToolCalls_mem (tools : List AgentTool) (tcs : List ToolCallReq) :
    ∀ (hist : List Message) (m : Message),
      m ∈ (execToolCalls tools tcs hist).1 → m ∈ hist ∨ m.role = Role.tool := by
  induction tcs with
  | nil =>
    intro hist m hm
    simp only [execToolCalls] at hm
    exact Or.inl hm
  | cons tc rest ih =>
    intro hist m hm
    simp only [execToolCalls] at hm
    rcases ht : toolByName tools tc.name with _ | t
    · rw [ht] at hm
      exact Or.inl hm
    · rw [ht] at hm
      rcases ih _ m hm with h1 | h2
      · rcases List.mem_append.mp h1 with h3 | h4
        · exact Or.inl h3
        · simp only [List.mem_singleton] at h4
          subst h4
          exact Or.inr rfl
      · exact Or.inr h2

lemma funcRunAux_no_system (tools : List AgentTool) (n : Nat) :
    ∀ (script : List LLMReply) (hist : List Message) (calls : Nat) (m : Message),
      (∀ x ∈ hist, x.role ≠ Role.system) →
      m ∈ (funcRunAux tools script hist calls n).history → m.role ≠ Role.system := by
  induction n with
  | zero =>
    intro script hist calls m hh hm
    simp only [funcRunAux] at hm
    exact hh m hm
  | succ k ih =>
    intro script hist calls m hh hm
    rcases script with _ | ⟨r, rest⟩
    · simp only [funcRunAux] at hm
      exact hh m hm
    · have hh1 : ∀ x ∈ hist ++ [r.toMessage], x.role ≠ Role.system := by
        intro x hx
        rcases List.mem_append.mp hx with h3 | h4
        · exact hh x h3
        · simp only [List.mem_singleton] at h4
          subst h4
          simp [LLMReply.toMessage]
      simp only [funcRunAux] at hm
      rcases hr : r.tool_calls with _ | ⟨tc, tl⟩
      · rw [hr] at hm
        exact hh1 m hm
      · rw [hr] at hm
        dsimp only at hm
        rcases hexec : execToolCalls tools (tc :: tl) (hist ++ [r.toMessage]) with ⟨hist2, oe⟩
        have hh2 : ∀ x ∈ hist2, x.role ≠ Role.system := by
          intro x hx
          have hmem := execToolCalls_mem tools (tc :: tl) (hist ++ [r.toMessage]) x
            (by rw [hexec]; exact hx)
          rcases hmem with h5 | h6
          · exact hh1 x h5
          · rw [h6]; simp
        rw [hexec] at hm
        rcases oe with _ | e
        · dsimp only at hm
          exact ih rest hist2 (calls + 1) m hh2 hm
        · dsimp only at hm
          exact hh2 m hm

lemma simpleRun_no_system (tools : List AgentTool) (script : List LLMReply)
    (hist0 : List Message) (q : String) (m : Message)
    (hh : ∀ x ∈ hist0, x.role ≠ Role.system) :
    m ∈ (simpleRun tools script hist0 q).history → m.role ≠ Role.system := by
  intro hm
  have hstep : ∀ (L : List Message), (∀ x ∈ L, x.role ≠ Role.system) →
      m ∈ hist0 ++ L → m.role ≠ Role.system :=
    fun L hL hmem => (List.mem_append.mp hmem).elim (hh m) (hL m)
  unfold simpleRun at hm
  rcases script with _ | ⟨r, rest⟩
  · dsimp only at hm
    refine hstep _ ?_ hm
    intro x hx
    fin_cases hx <;> simp [Message.mkUser]
  · dsimp only at hm
    rcases hp : parseToolCall (r.content.getD "") with _ | ⟨tn, po⟩ <;>
      rw [hp] at hm <;> dsimp only at hm
    · rw [show hist0 ++ [Message.mkUser q] ++ [r.toMessage]
          = hist0 ++ [Message.mkUser q, r.toMessage] by simp] at hm
      refine hstep _ ?_ hm
      intro x hx
      fin_cases hx <;> simp [Message.mkUser, LLMReply.toMessage]
    · rcases ht : toolByName tools tn with _ | t <;> rw [ht] at hm <;> dsimp only at hm
      · rw [show hist0 ++ [Message.mkUser q] ++ [r.toMessage]
            = hist0 ++ [Message.mkUser q, r.toMessage] by simp] at hm
        refine hstep _ ?_ hm
        intro x hx
        fin_cases hx <;> simp [Message.mkUser, LLMReply.toMessage]
      · rcases po with _ | v
        · dsimp only at hm
          rw [show hist0 ++ [Message.mkUser q] ++ [r.toMessage]
              = hist0 ++ [Message.mkUser q, r.toMessage] by simp] at hm
          refine hstep _ ?_ hm
          intro x hx
          fin_cases hx <;> simp [Message.mkUser, LLMReply.toMessage]
        · rcases v with _ | b | i | s | xs | kvs <;> dsimp only at hm <;>
            [skip; skip; skip; skip; skip; skip]
          case obj =>
            rcases hr : invokeTool t (Json.obj kvs) with e | ok <;> rw [hr] at hm <;>
              dsimp only at hm
            · rw [show hist0 ++ [Message.mkUser q] ++ [r.toMessage]
                  = hist0 ++ [Message.mkUser q, r.toMessage] by simp] at hm
              refine hstep _ ?_ hm
              intro x hx
              fin_cases hx <;> simp [Message.mkUser, LLMReply.toMessage]
            · rcases rest with _ | ⟨r2, rest2⟩ <;> dsimp only at hm
              · rw [show hist0 ++ [Message.mkUser q] ++ [r.toMessage]
                    ++ [Message.mkUser ("TOOL_RESULT:" ++ pyStr ok)]
                    = hist0 ++ [Message.mkUser q, r.toMessage,
                        Message.mkUser ("TOOL_RESULT:" ++ pyStr ok)] by simp] at hm
                refine hstep _ ?_ hm
                intro x hx
                fin_cases hx <;> simp [Message.mkUser, LLMReply.toMessage]
              · rw [show hist0 ++ [Message.mkUser q] ++ [r.toMessage]
                    ++ [Message.mkUser ("TOOL_RESULT:" ++ pyStr ok)] ++ [r2.toMessage]
                    = hist0 ++ [Message.mkUser q, r.toMessage,
                        Message.mkUser ("TOOL_RESULT:" ++ pyStr ok), r2.toMessage] by simp] at hm
                refine hstep _ ?_ hm
                intro x hx
                fin_cases hx <;> simp [Message.mkUser, LLMReply.toMessage]
          all_goals
            (rw [show hist0 ++ [Message.mkUser q] ++ [r.toMessage]
                = hist0 ++ [Message.mkUser q, r.toMessage] by simp] at hm
             refine hstep _ ?_ hm
             intro x hx
             fin_cases hx <;> simp [Message.mkUser, LLMReply.toMessage])

/-- C10 (confirmed): after `clear_history()`, the system message is gone
for good in SimpleAgent and OpenAIFunctionAgent — it is appended only in
their constructors, and a subsequent `run` (from the cleared, empty
history) never puts any system-role message into the history (a), (b);
ReActAgent alone re-inserts a system message inside `run` when position
0 does not hold one, so its post-clear runs have a system message back
at the head of the history (c). -/
theorem clear_history_system_message_permanence :
    (∀ (h0 : List Message) (tools : List AgentTool) (script : List LLMReply) (q : String)
        (m : Message),
        m ∈ (simpleRun tools script (clearHistory h0) q).history → m.role ≠ Role.system)
      ∧ (∀ (h0 : List Message) (tools : List AgentTool) (maxTurns : Nat)
          (script : List LLMReply) (q : String) (m : Message),
          m ∈ (funcRun tools maxTurns script (clearHistory h0) q).history
            → m.role ≠ Role.system)
      ∧ (∀ (h0 : List Message) (tools : List AgentTool) (n : Nat) (script : List LLMReply)
          (q : String),
          ((reactRun tools (n + 1) script (clearHistory h0) q).history.head?).map Message.role
            = some Role.system) := by
  refine ⟨?_, ?_, ?_⟩
  · intro h0 tools script q m hm
    exact simpleRun_no_system tools script (clearHistory h0) q m (by simp [clearHistory]) hm
  · intro h0 tools maxTurns script q m hm
    unfold funcRun at hm
    refine funcRunAux_no_system tools maxTurns script _ 0 m ?_ hm
    intro x hx
    simp [clearHistory] at hx
    rw [hx]
    simp [Message.mkUser]
  · intro h0 tools n script q
    unfold reactRun
    exact reactRunAux_head_system tools n script _ "" none none 0

/-- C10 (witness). -/
theorem clear_history_system_message_permanence_witness :
    Message.mkUser "q" ∈ (simpleRun [] [] (clearHistory [Message.mkSystem "sys"]) "q").history
      ∧ (Message.mkUser "q").role ≠ Role.system :=
  ⟨by decide,
    clear_history_system_message_permanence.1 [Message.mkSystem "sys"] [] [] "q"
      (Message.mkUser "q") (by decide)⟩
